import Mathlib

set_option maxHeartbeats 1000000

/-!
Shallow embedding of `models/gem_gcn.py` (gauge-equivariant mesh convolutional
network, class `GEMGCN`).

The file embeds the module's own logic — constructor wiring, `prepare_input`
feature assembly, and the `forward` orchestration — directly from the source.
The external collaborators (`GemResNetBlock`, `ParallelTransportPool`,
`ScaleMask`/`GemPrecomp`, `so2_feature_to_ambient_vector`, torch's `squeeze`)
live in third-party libraries outside this repository; their observable
shape-level behaviour is modelled from the spec, in definitions whose doc
comments say so.  Feature values are rationals (the assembly only copies
values and writes zeros, so no floating-point arithmetic is involved).
Fallible runtime behaviour (attribute access, index lookup, tensor-shape
compatibility) is modelled with `Except`.
-/

/-- Runtime failure classes surfaced by the Python runtime: tensor-shape
mismatches, out-of-range indexing/list-index errors, and missing-attribute
access on the mesh batch. -/
inductive Err where
  | shapeError
  | indexError
  | attributeError
deriving DecidableEq

/-- Tensors of rank 3 (vertices × channels × irrep components), as nested
lists of rationals. -/
abbrev Tensor3 := List (List (List ℚ))

/-- Tensor shapes, as a list of dimension sizes. -/
abbrev Shape := List Nat

/-- Shape metadata of a rank-3 tensor built by the assembly code. -/
def tshape (t : Tensor3) : Shape :=
  [t.length, (t.headD []).length, ((t.headD []).headD []).length]

/-- A mesh batch (`torch_geometric` data object) with the attributes
`GEMGCN` reads: `matrix_features`, `geo`, `condition`, `batch`, `frame`.
Optional fields model attributes that may be absent (attribute access then
raises).  `pooledCounts` records the vertex count of each coarser pooling
level of the mesh (level `l+1` has `pooledCounts[l]` vertices), standing for
the per-level mask data the pooling operators consult. -/
structure MeshData where
  matrix_features : Tensor3
  geo : Option (List ℚ)
  condition : Option (List ℚ)
  batch : Option (List Nat)
  frame : Option (List ℚ)
  pooledCounts : List Nat
deriving DecidableEq

/-- Vertex count of the mesh at pooling level `l` (level 0 is native
resolution). -/
def countAt (d : MeshData) : Nat → Nat
  | 0 => d.matrix_features.length
  | l + 1 => d.pooledCounts.getD l 0

/-- Construction parameters of one `T.Compose([ScaleMask(i),
GemPrecomp(n_rings, max_order, max_r=r)])` scale transform. -/
structure ScaleTransform where
  maskIndex : Nat
  n_rings : Nat
  max_order : Nat
  max_r : ℚ
deriving DecidableEq

/-- Modelled from the spec: the `(edge_index, precomp, connection)` triple a
scale transform derives from a mesh batch.  The transform is stateless and
depends only on the transform's parameters and the mesh geometry
(spec §4.2), so the triple is represented by that pair. -/
structure ScaleAttr where
  transform : ScaleTransform
  data : MeshData
deriving DecidableEq

/-- Construction parameters of one `GemResNetBlock` (positional arguments
and the keyword arguments passed in the constructor). -/
structure BlockSpec where
  in_channels : Nat
  out_channels : Nat
  in_order : Nat
  out_order : Nat
  n_rings : Nat
  band_limit : Nat
  num_samples : Nat
  checkpoint : Bool
  batch_norm : Bool
  last_layer : Bool
deriving DecidableEq

/-- Construction parameters of one `ParallelTransportPool` operator. -/
structure PoolSpec where
  level : Nat
  unpool : Bool
deriving DecidableEq

/-- Names of the fourteen convolution blocks of the network. -/
inductive BlockName where
  | conv01 | conv02 | conv03 | conv04 | conv05 | conv06
  | conv11 | conv12 | conv13 | conv14 | conv15 | conv16
  | conv21 | conv22
deriving DecidableEq

/-- Names of the two skip-connection copies taken in `forward`. -/
inductive CopyName where
  | copy0 | copy1
deriving DecidableEq

/-- One observable event of a forward evaluation: feature assembly, a scale
precomputation, a convolution-block call (with the literal scale index the
source writes at the call site and the scale attribute actually passed), a
skip capture (`.clone()`), a pool/unpool call, a skip concatenation, the
ambient projection, and the final squeeze. -/
inductive Step where
  | assembly
  | precomp (t : ScaleTransform)
  | conv (name : BlockName) (idx : Nat) (attr : ScaleAttr)
  | capture (c : CopyName)
  | pool (level : Nat)
  | unpool (level : Nat)
  | catSkip (c : CopyName)
  | projection
  | squeeze
deriving DecidableEq

/-- The `GEMGCN` module state: the stored representation descriptors, the
scale transform list, the fourteen convolution blocks, the four
pooling/unpooling operators, and the learned parameters (opaque payload). -/
structure GEMGCN where
  in_rep : Nat × Nat
  out_rep : Nat × Nat
  scale_transforms : List ScaleTransform
  conv01 : BlockSpec
  conv02 : BlockSpec
  pool1 : PoolSpec
  conv11 : BlockSpec
  conv12 : BlockSpec
  pool2 : PoolSpec
  conv21 : BlockSpec
  conv22 : BlockSpec
  unpool2 : PoolSpec
  conv13 : BlockSpec
  conv14 : BlockSpec
  conv15 : BlockSpec
  conv16 : BlockSpec
  unpool1 : PoolSpec
  conv03 : BlockSpec
  conv04 : BlockSpec
  conv05 : BlockSpec
  conv06 : BlockSpec
  params : List ℚ
deriving DecidableEq

/-- The scale-transform list built by the comprehension
`[T.Compose([ScaleMask(i), GemPrecomp(n_rings, max_order, max_r=r)])
for i, r in enumerate(radii)]`, with `j` the enumeration offset. -/
def mkScaleTransforms (n_rings max_order : Nat) : Nat → List ℚ → List ScaleTransform
  | _, [] => []
  | j, r :: rs =>
    ⟨j, n_rings, max_order, r⟩ :: mkScaleTransforms n_rings max_order (j + 1) rs

/-- The `GEMGCN.__init__` constructor: records `in_rep`/`out_rep`, builds one
scale transform per radius, and instantiates the convolution blocks and
pooling operators with `channels = 26` and the fixed keyword arguments
`n_rings=n_rings, band_limit=2, num_samples=7, checkpoint=True,
batch_norm=True`.  Learned-parameter initialisation is abstracted into the
explicit `params` payload. -/
def mkGEMGCN (radii : List ℚ) (in_rep out_rep : Nat × Nat) (max_order n_rings : Nat)
    (params : List ℚ) : GEMGCN :=
  let channels := 26
  { in_rep := in_rep
    out_rep := out_rep
    scale_transforms := mkScaleTransforms n_rings max_order 0 radii
    conv01 := ⟨in_rep.2, channels, in_rep.1, max_order, n_rings, 2, 7, true, true, false⟩
    conv02 := ⟨channels, channels, max_order, max_order, n_rings, 2, 7, true, true, false⟩
    pool1 := ⟨1, false⟩
    conv11 := ⟨channels, channels, max_order, max_order, n_rings, 2, 7, true, true, false⟩
    conv12 := ⟨channels, channels, max_order, max_order, n_rings, 2, 7, true, true, false⟩
    pool2 := ⟨2, false⟩
    conv21 := ⟨channels, channels, max_order, max_order, n_rings, 2, 7, true, true, false⟩
    conv22 := ⟨channels, channels, max_order, max_order, n_rings, 2, 7, true, true, false⟩
    unpool2 := ⟨2, true⟩
    conv13 := ⟨channels + channels, channels, max_order, max_order, n_rings, 2, 7, true, true, false⟩
    conv14 := ⟨channels, channels, max_order, max_order, n_rings, 2, 7, true, true, false⟩
    conv15 := ⟨channels, channels, max_order, max_order, n_rings, 2, 7, true, true, false⟩
    conv16 := ⟨channels, channels, max_order, max_order, n_rings, 2, 7, true, true, false⟩
    unpool1 := ⟨1, true⟩
    conv03 := ⟨channels + channels, channels, max_order, max_order, n_rings, 2, 7, true, true, false⟩
    conv04 := ⟨channels, channels, max_order, max_order, n_rings, 2, 7, true, true, false⟩
    conv05 := ⟨channels, channels, max_order, max_order, n_rings, 2, 7, true, true, false⟩
    conv06 := ⟨channels, out_rep.2, max_order, out_rep.1, n_rings, 2, 7, true, true, true⟩
    params := params }

/-- Attribute access on the mesh batch: a present attribute yields its value,
a missing one raises `AttributeError`. -/
def getAttrOpt {α : Type} : Option α → Except Err α
  | some a => Except.ok a
  | none => Except.error Err.attributeError

/-- Python list indexing `scale_attr[i]`: out of range raises `IndexError`. -/
def getScale (l : List ScaleAttr) (i : Nat) : Except Err ScaleAttr :=
  match l.get? i with
  | some a => Except.ok a
  | none => Except.error Err.indexError

/-- A scalar-only channel row: zeros in every irrep slot except slot 0,
which holds `v` (the pattern of `torch.zeros((N, 1, irreps))` followed by
`[:, 0, 0] = v`). -/
def scalarChan (irreps : Nat) (v : ℚ) : List ℚ :=
  (List.replicate irreps 0).set 0 v

/-- Result of `GEMGCN.prepare_input`: the assembled feature tensor and the
scale attributes, together with the mesh batch as it stands after the call
(the source never writes to it) and the event log of the call. -/
structure PrepOut where
  x : Tensor3
  scale_attr : List ScaleAttr
  data : MeshData
  trace : List Step
deriving DecidableEq

/-- `GEMGCN.prepare_input`: concatenates `matrix_features` with a
scalar-only geodesics channel, appends a scalar-only boundary-condition
channel when `in_rep[1] > x.size(1)`, and applies every scale transform to
the batch.  `x.size(1)` is the channel-count metadata of the concatenated
tensor, i.e. the `matrix_features` channel count plus one. -/
def prepare_input (m : GEMGCN) (d : MeshData) : Except Err PrepOut := do
  let features := d.matrix_features
  let N := features.length
  let irreps := ((features.headD []).headD []).length
  let g ← getAttrOpt d.geo
  if g.length = N then
    let geodesics := g.map (fun v => [scalarChan irreps v])
    let x := List.zipWith (fun row ch => row ++ ch) features geodesics
    let size1 := (features.headD []).length + 1
    if m.in_rep.2 > size1 then
      let c ← getAttrOpt d.condition
      let b ← getAttrOpt d.batch
      if b.length = N then
        if b.all (fun k => decide (k < c.length)) then
          let cond := b.map (fun k => [scalarChan irreps (c.getD k 0)])
          let x2 := List.zipWith (fun row ch => row ++ ch) x cond
          pure ⟨x2, m.scale_transforms.map (fun t => ScaleAttr.mk t d), d,
                Step.assembly :: m.scale_transforms.map Step.precomp⟩
        else Except.error Err.indexError
      else Except.error Err.shapeError
    else
      pure ⟨x, m.scale_transforms.map (fun t => ScaleAttr.mk t d), d,
            Step.assembly :: m.scale_transforms.map Step.precomp⟩
  else Except.error Err.shapeError

/-- Modelled from the spec: shape behaviour of a `GemResNetBlock` call.  A
block maps `(N, in_channels, irreps)` features to `(N, out_channels,
irreps)` features at the same vertices; a channel-count mismatch with the
declared input representation surfaces as a tensor-shape error (spec §4.3,
§7). -/
def applyBlock (b : BlockSpec) (s : Shape) : Except Err Shape :=
  match s with
  | [n, c, i] =>
    if c = b.in_channels then Except.ok [n, b.out_channels, i]
    else Except.error Err.shapeError
  | _ => Except.error Err.shapeError

/-- Modelled from the spec: shape behaviour of a `ParallelTransportPool`
call.  Pooling to level `l` transports features onto the level-`l` vertex
subset; unpooling from level `l` restores the level-`l-1` subset
(spec §4.4). -/
def applyPool (ps : PoolSpec) (d : MeshData) (s : Shape) : Shape :=
  match s with
  | [_, c, i] =>
    if ps.unpool then [countAt d (ps.level - 1), c, i] else [countAt d ps.level, c, i]
  | s => s

/-- Modelled from the spec: `torch.cat(-, dim=1)` of two feature tensors —
channel counts add; vertex and irrep dimensions must agree, otherwise a
shape error is raised. -/
def applyCat (s t : Shape) : Except Err Shape :=
  match s, t with
  | [n, c, i], [n2, c2, i2] =>
    if n = n2 ∧ i = i2 then Except.ok [n, c + c2, i] else Except.error Err.shapeError
  | _, _ => Except.error Err.shapeError

/-- Modelled from the spec: shape behaviour of
`so2_feature_to_ambient_vector` — each per-vertex, per-channel tangential
SO(2) feature becomes an ambient 3D vector (spec §4.6). -/
def applyProj (s : Shape) : Except Err Shape :=
  match s with
  | [n, c, _] => Except.ok [n, c, 3]
  | _ => Except.error Err.shapeError

/-- Modelled from the spec: torch `squeeze()` — every singleton dimension is
dropped from the shape. -/
def squeezeShape : Shape → Shape
  | [] => []
  | k :: ks => if k = 1 then squeezeShape ks else k :: squeezeShape ks

/-- Result of a `GEMGCN.forward` call: the output shape, the event log, and
the module and mesh batch as they stand after the call. -/
structure ForwardOut where
  out : Shape
  trace : List Step
  module : GEMGCN
  data : MeshData
deriving DecidableEq

/-- `GEMGCN.forward`, line by line: assembly, encoder (`conv01`, `conv02`),
downstream (`copy0`, `pool1`, `conv11`, `conv12`, `copy1`, `pool2`,
`conv21`, `conv22`), upstream (`unpool2`, concat `copy1`, `conv13`–`conv16`),
decoder (`unpool1`, concat `copy0`, `conv03`–`conv06`), then the ambient
projection with `data.frame` and the final `squeeze()`.  Scale attributes are
indexed at each call site exactly as written in the source. -/
def forward (m : GEMGCN) (d : MeshData) : Except Err ForwardOut := do
  let p ← prepare_input m d
  let a0 ← getScale p.scale_attr 0
  let s1 ← applyBlock m.conv01 (tshape p.x)
  let s2 ← applyBlock m.conv02 s1
  let copy0 := s2
  let s3 := applyPool m.pool1 p.data s2
  let a1 ← getScale p.scale_attr 1
  let s4 ← applyBlock m.conv11 s3
  let s5 ← applyBlock m.conv12 s4
  let copy1 := s5
  let s6 := applyPool m.pool2 p.data s5
  let a2 ← getScale p.scale_attr 2
  let s7 ← applyBlock m.conv21 s6
  let s8 ← applyBlock m.conv22 s7
  let s9 := applyPool m.unpool2 p.data s8
  let s10 ← applyCat s9 copy1
  let s11 ← applyBlock m.conv13 s10
  let s12 ← applyBlock m.conv14 s11
  let s13 ← applyBlock m.conv15 s12
  let s14 ← applyBlock m.conv16 s13
  let s15 := applyPool m.unpool1 p.data s14
  let s16 ← applyCat s15 copy0
  let s17 ← applyBlock m.conv03 s16
  let s18 ← applyBlock m.conv04 s17
  let s19 ← applyBlock m.conv05 s18
  let s20 ← applyBlock m.conv06 s19
  let _ ← getAttrOpt p.data.frame
  let s21 ← applyProj s20
  let sOut := squeezeShape s21
  pure ⟨sOut,
    p.trace ++
      [Step.conv BlockName.conv01 0 a0, Step.conv BlockName.conv02 0 a0,
       Step.capture CopyName.copy0, Step.pool 1,
       Step.conv BlockName.conv11 1 a1, Step.conv BlockName.conv12 1 a1,
       Step.capture CopyName.copy1, Step.pool 2,
       Step.conv BlockName.conv21 2 a2, Step.conv BlockName.conv22 2 a2,
       Step.unpool 2, Step.catSkip CopyName.copy1,
       Step.conv BlockName.conv13 1 a1, Step.conv BlockName.conv14 1 a1,
       Step.conv BlockName.conv15 1 a1, Step.conv BlockName.conv16 1 a1,
       Step.unpool 1, Step.catSkip CopyName.copy0,
       Step.conv BlockName.conv03 0 a0, Step.conv BlockName.conv04 0 a0,
       Step.conv BlockName.conv05 0 a0, Step.conv BlockName.conv06 0 a0,
       Step.projection, Step.squeeze],
    m, p.data⟩

/-- Channel count of the `matrix_features` tensor (its `shape[1]` metadata). -/
def baseC (d : MeshData) : Nat := (d.matrix_features.headD []).length

/-- Irrep-component count of the `matrix_features` tensor (its `shape[2]`
metadata). -/
def irrepsOf (d : MeshData) : Nat := ((d.matrix_features.headD []).headD []).length

/-- The base concatenation of `prepare_input`: `matrix_features` with the
scalar-only geodesics channel appended to every vertex. -/
def baseAssembled (d : MeshData) (g : List ℚ) : Tensor3 :=
  List.zipWith (fun row ch => row ++ ch) d.matrix_features
    (g.map (fun v => [scalarChan (irrepsOf d) v]))

/-- The conditional concatenation of `prepare_input`: the base concatenation
with the scalar-only boundary-condition channel appended to every vertex. -/
def condAssembled (d : MeshData) (g c : List ℚ) (b : List Nat) : Tensor3 :=
  List.zipWith (fun row ch => row ++ ch) (baseAssembled d g)
    (b.map (fun k => [scalarChan (irrepsOf d) (c.getD k 0)]))

/-- The linear pipeline order the spec describes (§4.5): Assembly (with the
per-scale precomputation) → Encoder → {Pool → Convolve ×2} ×2 → {Unpool →
Concat(skip) → Convolve ×4} ×2 → Projection, skips captured immediately
before each pooling step and consumed immediately after the matching
unpooling step, every block paired with its level's scale attribute. -/
def specPipelineTrace (nr mo : Nat) (r0 r1 r2 : ℚ) (d : MeshData) : List Step :=
  [Step.assembly,
   Step.precomp ⟨0, nr, mo, r0⟩, Step.precomp ⟨1, nr, mo, r1⟩, Step.precomp ⟨2, nr, mo, r2⟩,
   Step.conv BlockName.conv01 0 ⟨⟨0, nr, mo, r0⟩, d⟩,
   Step.conv BlockName.conv02 0 ⟨⟨0, nr, mo, r0⟩, d⟩,
   Step.capture CopyName.copy0, Step.pool 1,
   Step.conv BlockName.conv11 1 ⟨⟨1, nr, mo, r1⟩, d⟩,
   Step.conv BlockName.conv12 1 ⟨⟨1, nr, mo, r1⟩, d⟩,
   Step.capture CopyName.copy1, Step.pool 2,
   Step.conv BlockName.conv21 2 ⟨⟨2, nr, mo, r2⟩, d⟩,
   Step.conv BlockName.conv22 2 ⟨⟨2, nr, mo, r2⟩, d⟩,
   Step.unpool 2, Step.catSkip CopyName.copy1,
   Step.conv BlockName.conv13 1 ⟨⟨1, nr, mo, r1⟩, d⟩,
   Step.conv BlockName.conv14 1 ⟨⟨1, nr, mo, r1⟩, d⟩,
   Step.conv BlockName.conv15 1 ⟨⟨1, nr, mo, r1⟩, d⟩,
   Step.conv BlockName.conv16 1 ⟨⟨1, nr, mo, r1⟩, d⟩,
   Step.unpool 1, Step.catSkip CopyName.copy0,
   Step.conv BlockName.conv03 0 ⟨⟨0, nr, mo, r0⟩, d⟩,
   Step.conv BlockName.conv04 0 ⟨⟨0, nr, mo, r0⟩, d⟩,
   Step.conv BlockName.conv05 0 ⟨⟨0, nr, mo, r0⟩, d⟩,
   Step.conv BlockName.conv06 0 ⟨⟨0, nr, mo, r0⟩, d⟩,
   Step.projection, Step.squeeze]

/-- The scale level the spec assigns to each convolution block (level-0
blocks `conv01`–`conv06`, level-1 blocks `conv11`–`conv16`, level-2 blocks
`conv21`–`conv22`), as the reference for scale-index consistency. -/
def specScaleIndex : BlockName → Nat
  | BlockName.conv01 | BlockName.conv02 | BlockName.conv03
  | BlockName.conv04 | BlockName.conv05 | BlockName.conv06 => 0
  | BlockName.conv11 | BlockName.conv12 | BlockName.conv13
  | BlockName.conv14 | BlockName.conv15 | BlockName.conv16 => 1
  | BlockName.conv21 | BlockName.conv22 => 2

/-- A concrete well-formed three-vertex mesh batch (one feature channel, one
irrep component, no boundary-condition attribute). -/
def exData : MeshData :=
  ⟨[[[0]], [[0]], [[0]]], some [0, 0, 0], none, none, some [0], [2, 1]⟩

/-- A concrete module with three radii, `in_rep = (1, 2)`, `out_rep = (1, 1)`. -/
def exModule : GEMGCN := mkGEMGCN [1, 2, 3] (1, 2) (1, 1) 2 2 []

/-- Fallback record used only as the `getD` default below. -/
def exFallback : ForwardOut := ⟨[], [], exModule, exData⟩

/-- The result of running `forward` on the concrete module and batch. -/
def exOut : ForwardOut := (forward exModule exData).toOption.getD exFallback

/-- A concrete well-formed single-vertex mesh batch. -/
def c1Data : MeshData := ⟨[[[0]]], some [0], none, none, some [0], [1, 1]⟩

/-- The concrete batch with the `geo` attribute missing. -/
def exNoGeo : MeshData := ⟨[[[0]], [[0]], [[0]]], none, none, none, some [0], [2, 1]⟩

/-- A module whose declared `in_rep` total (5) exceeds by more than one the
channel width of the base concatenation (matrix features plus geodesics). -/
def c2Module : GEMGCN := mkGEMGCN [1, 1, 1] (1, 5) (1, 1) 2 2 []

/-- A concrete two-vertex batch carrying condition and batch attributes. -/
def c2Data : MeshData :=
  ⟨[[[0]], [[0]]], some [0, 0], some [0], some [0, 0], some [0], [1, 1]⟩

theorem ok_bind {α β : Type} (a : α) (f : α → Except Err β) :
    (Except.ok a >>= f : Except Err β) = f a := rfl

theorem error_bind {α β : Type} (e : Err) (f : α → Except Err β) :
    (Except.error e >>= f : Except Err β) = Except.error e := rfl

theorem bind_ok_iff {α β : Type} {x : Except Err α} {f : α → Except Err β} {b : β} :
    (x >>= f : Except Err β) = Except.ok b ↔ ∃ a, x = Except.ok a ∧ f a = Except.ok b := by
  cases x <;> simp [ok_bind, error_bind, Bind.bind, Except.bind]

theorem pure_ok_iff {α : Type} {a b : α} :
    (pure a : Except Err α) = Except.ok b ↔ a = b := by
  constructor
  · intro h
    exact Except.ok.inj h
  · intro h
    rw [h]
    rfl

theorem prepare_input_eq_base (m : GEMGCN) (d : MeshData) (g : List ℚ)
    (hg : d.geo = some g) (hlen : g.length = d.matrix_features.length)
    (hrep : m.in_rep.2 ≤ baseC d + 1) :
    prepare_input m d = Except.ok ⟨baseAssembled d g,
      m.scale_transforms.map (fun t => ScaleAttr.mk t d), d,
      Step.assembly :: m.scale_transforms.map Step.precomp⟩ := by
  have hrep2 : ¬ (m.in_rep.2 > (d.matrix_features.headD []).length + 1) := by
    simp only [gt_iff_lt, not_lt]
    exact hrep
  simp only [prepare_input, hg, getAttrOpt, ok_bind, hlen, if_pos, if_true, if_neg hrep2]
  rfl

theorem prepare_input_eq_cond (m : GEMGCN) (d : MeshData) (g c : List ℚ) (b : List Nat)
    (hg : d.geo = some g) (hlen : g.length = d.matrix_features.length)
    (hrep : baseC d + 1 < m.in_rep.2)
    (hc : d.condition = some c) (hb : d.batch = some b)
    (hbl : b.length = d.matrix_features.length)
    (hball : b.all (fun k => decide (k < c.length)) = true) :
    prepare_input m d = Except.ok ⟨condAssembled d g c b,
      m.scale_transforms.map (fun t => ScaleAttr.mk t d), d,
      Step.assembly :: m.scale_transforms.map Step.precomp⟩ := by
  have hrep2 : m.in_rep.2 > (d.matrix_features.headD []).length + 1 := hrep
  simp only [prepare_input, hg, hc, hb, getAttrOpt, ok_bind]
  rw [if_pos hlen, if_pos hrep2, if_pos hbl, if_pos hball]
  rfl

theorem scalarChan_length (irr : Nat) (v : ℚ) : (scalarChan irr v).length = irr := by
  simp [scalarChan]

theorem tshape_baseAssembled (d : MeshData) (g : List ℚ)
    (hlen : g.length = d.matrix_features.length)
    (hN : 1 ≤ d.matrix_features.length) :
    tshape (baseAssembled d g) = [d.matrix_features.length, baseC d + 1, irrepsOf d] := by
  rcases hF : d.matrix_features with _ | ⟨f, fs⟩
  · rw [hF] at hN
    simp at hN
  · rcases g with _ | ⟨v, vs⟩
    · rw [hF] at hlen
      simp at hlen
    · have hlen2 : vs.length = fs.length := by
        rw [hF] at hlen
        simpa using hlen
      unfold baseAssembled tshape baseC irrepsOf
      rw [hF]
      simp only [List.map_cons, List.zipWith_cons_cons, List.length_cons,
        List.headD_cons, List.length_zipWith, List.length_map, hlen2,
        min_self, List.length_append, List.length_nil]
      rcases f with _ | ⟨a, as⟩
      · simp [scalarChan_length]
      · simp

theorem tshape_condAssembled (d : MeshData) (g c : List ℚ) (b : List Nat)
    (hlen : g.length = d.matrix_features.length)
    (hbl : b.length = d.matrix_features.length)
    (hN : 1 ≤ d.matrix_features.length) :
    tshape (condAssembled d g c b) = [d.matrix_features.length, baseC d + 2, irrepsOf d] := by
  rcases hF : d.matrix_features with _ | ⟨f, fs⟩
  · rw [hF] at hN
    simp at hN
  · rcases g with _ | ⟨v, vs⟩
    · rw [hF] at hlen
      simp at hlen
    · rcases b with _ | ⟨k, ks⟩
      · rw [hF] at hbl
        simp at hbl
      · have hlen2 : vs.length = fs.length := by
          rw [hF] at hlen
          simpa using hlen
        have hbl2 : ks.length = fs.length := by
          rw [hF] at hbl
          simpa using hbl
        unfold condAssembled baseAssembled tshape baseC irrepsOf
        rw [hF]
        simp only [List.map_cons, List.zipWith_cons_cons, List.length_cons, List.headD_cons,
          List.length_zipWith, List.length_map, hlen2, hbl2, min_self, List.length_append,
          List.length_nil, List.cons.injEq, and_true, true_and]
        rcases f with _ | ⟨a, as⟩
        · simp [scalarChan_length]
        · simp

theorem forward_ok_of_wf (r0 r1 r2 : ℚ) (irep orep : Nat × Nat) (mo nr : Nat) (p : List ℚ)
    (d : MeshData) (g fr : List ℚ)
    (hg : d.geo = some g) (hlen : g.length = d.matrix_features.length)
    (hfr : d.frame = some fr)
    (hN : 1 ≤ d.matrix_features.length)
    (hrep : irep.2 = baseC d + 1 ∨
      (irep.2 = baseC d + 2 ∧ ∃ c b, d.condition = some c ∧ d.batch = some b ∧
        b.length = d.matrix_features.length ∧ b.all (fun k => decide (k < c.length)) = true)) :
    forward (mkGEMGCN [r0, r1, r2] irep orep mo nr p) d = Except.ok
      ⟨squeezeShape [d.matrix_features.length, orep.2, 3],
       specPipelineTrace nr mo r0 r1 r2 d,
       mkGEMGCN [r0, r1, r2] irep orep mo nr p, d⟩ := by
  rcases hrep with h1 | ⟨h2, c, b, hc, hb, hbl, hball⟩
  · have hle : (mkGEMGCN [r0, r1, r2] irep orep mo nr p).in_rep.2 ≤ baseC d + 1 :=
      le_of_eq h1
    have hprep := prepare_input_eq_base (mkGEMGCN [r0, r1, r2] irep orep mo nr p) d g hg hlen hle
    have hts := tshape_baseAssembled d g hlen hN
    simp only [forward]
    rw [hprep]
    simp only [ok_bind]
    simp [ok_bind, hts, h1, getScale, applyBlock, applyPool, applyCat, applyProj, getAttrOpt,
      hfr, countAt, mkGEMGCN, mkScaleTransforms, specPipelineTrace]
  · have hlt : baseC d + 1 < (mkGEMGCN [r0, r1, r2] irep orep mo nr p).in_rep.2 := by
      have : (mkGEMGCN [r0, r1, r2] irep orep mo nr p).in_rep.2 = irep.2 := rfl
      omega
    have hprep := prepare_input_eq_cond (mkGEMGCN [r0, r1, r2] irep orep mo nr p) d g c b
      hg hlen hlt hc hb hbl hball
    have hts := tshape_condAssembled d g c b hlen hbl hN
    simp only [forward]
    rw [hprep]
    simp only [ok_bind]
    simp [ok_bind, hts, h2, getScale, applyBlock, applyPool, applyCat, applyProj, getAttrOpt,
      hfr, countAt, mkGEMGCN, mkScaleTransforms, specPipelineTrace]

theorem mkScaleTransforms_length (nr mo : Nat) :
    ∀ (j : Nat) (l : List ℚ), (mkScaleTransforms nr mo j l).length = l.length := by
  intro j l
  induction l generalizing j with
  | nil => rfl
  | cons r rs ih => simp [mkScaleTransforms, ih]

theorem mkScaleTransforms_get (nr mo : Nat) :
    ∀ (l : List ℚ) (j i : Nat) (r : ℚ), l.get? i = some r →
      (mkScaleTransforms nr mo j l).get? i = some ⟨j + i, nr, mo, r⟩ := by
  intro l
  induction l with
  | nil => intro j i r h; simp at h
  | cons a rs ih =>
    intro j i r h
    cases i with
    | zero =>
      simp only [List.get?_cons_zero, Option.some.injEq] at h
      simp [mkScaleTransforms, h]
    | succ i =>
      simp only [List.get?_cons_succ] at h
      have := ih (j + 1) i r h
      simp only [mkScaleTransforms, List.get?_cons_succ, this, Option.some.injEq]
      congr 1
      omega

theorem getD_zipWith {α β γ : Type} (f : α → β → γ) (dflt : γ) (d1 : α) (d2 : β) :
    ∀ (l1 : List α) (l2 : List β) (n : Nat), n < l1.length → n < l2.length →
      (List.zipWith f l1 l2).getD n dflt = f (l1.getD n d1) (l2.getD n d2) := by
  intro l1
  induction l1 with
  | nil => intro l2 n h1 h2; simp at h1
  | cons a l ih =>
    intro l2 n h1 h2
    cases l2 with
    | nil => simp at h2
    | cons b l2t =>
      cases n with
      | zero => simp
      | succ n =>
        simp only [List.zipWith_cons_cons, List.getD_cons_succ]
        exact ih l2t n (by simpa using h1) (by simpa using h2)

theorem getD_map_geoChan (irr : Nat) (g : List ℚ) :
    ∀ (n : Nat), n < g.length →
      (g.map (fun v => [scalarChan irr v])).getD n [] = [scalarChan irr (g.getD n 0)] := by
  induction g with
  | nil => intro n h; simp at h
  | cons v vs ih =>
    intro n h
    cases n with
    | zero => simp
    | succ n =>
      simp only [List.map_cons, List.getD_cons_succ]
      exact ih n (by simpa using h)

theorem getD_map_condChan (irr : Nat) (c : List ℚ) (b : List Nat) :
    ∀ (n : Nat), n < b.length →
      (b.map (fun k => [scalarChan irr (c.getD k 0)])).getD n [] =
        [scalarChan irr (c.getD (b.getD n 0) 0)] := by
  induction b with
  | nil => intro n h; simp at h
  | cons k ks ih =>
    intro n h
    cases n with
    | zero => simp
    | succ n =>
      simp only [List.map_cons, List.getD_cons_succ]
      exact ih n (by simpa using h)

theorem prepare_input_ok_inv (m : GEMGCN) (d : MeshData) (q : PrepOut)
    (h : prepare_input m d = Except.ok q) :
    q.data = d ∧ q.trace = Step.assembly :: m.scale_transforms.map Step.precomp ∧
      q.scale_attr = m.scale_transforms.map (fun t => ScaleAttr.mk t d) := by
  simp only [prepare_input] at h
  rw [bind_ok_iff] at h
  obtain ⟨g, hg, h⟩ := h
  split at h
  · split at h
    · rw [bind_ok_iff] at h
      obtain ⟨c, hc, h⟩ := h
      rw [bind_ok_iff] at h
      obtain ⟨b, hb, h⟩ := h
      split at h
      · split at h
        · rw [pure_ok_iff] at h
          rw [← h]
          exact ⟨rfl, rfl, rfl⟩
        · cases h
      · cases h
    · rw [pure_ok_iff] at h
      rw [← h]
      exact ⟨rfl, rfl, rfl⟩
  · cases h

theorem forward_ok_inv (m : GEMGCN) (d : MeshData) (r : ForwardOut)
    (h : forward m d = Except.ok r) :
    r.module = m ∧ r.data = d ∧
      ∃ tail, r.trace = (Step.assembly :: m.scale_transforms.map Step.precomp) ++ tail := by
  simp only [forward] at h
  rw [bind_ok_iff] at h
  obtain ⟨p, hp, h⟩ := h
  obtain ⟨hdata, htrace, hattr⟩ := prepare_input_ok_inv m d p hp
  simp only [bind_ok_iff, pure_ok_iff] at h
  obtain ⟨a0, ha0, s1, hs1, s2, hs2, a1, ha1, s4, hs4, s5, hs5, a2, ha2, s7, hs7, s8, hs8,
    s10, hs10, s11, hs11, s12, hs12, s13, hs13, s14, hs14, s16, hs16, s17, hs17, s18, hs18,
    s19, hs19, s20, hs20, fr2, hfr2, s21, hs21, hfin⟩ := h
  rw [← hfin]
  refine ⟨rfl, hdata, ?_⟩
  rw [htrace]
  exact ⟨_, rfl⟩

theorem prepare_input_wf (m : GEMGCN) (d : MeshData) (g : List ℚ)
    (hg : d.geo = some g) (hlen : g.length = d.matrix_features.length)
    (hN : 1 ≤ d.matrix_features.length)
    (hrep : m.in_rep.2 = baseC d + 1 ∨
      (m.in_rep.2 = baseC d + 2 ∧ ∃ c b, d.condition = some c ∧ d.batch = some b ∧
        b.length = d.matrix_features.length ∧ b.all (fun k => decide (k < c.length)) = true)) :
    ∃ x, prepare_input m d = Except.ok ⟨x,
        m.scale_transforms.map (fun t => ScaleAttr.mk t d), d,
        Step.assembly :: m.scale_transforms.map Step.precomp⟩ ∧
      tshape x = [d.matrix_features.length, m.in_rep.2, irrepsOf d] := by
  rcases hrep with h1 | ⟨h2, c, b, hc, hb, hbl, hball⟩
  · refine ⟨baseAssembled d g, prepare_input_eq_base m d g hg hlen (le_of_eq h1), ?_⟩
    rw [tshape_baseAssembled d g hlen hN, h1]
  · refine ⟨condAssembled d g c b,
      prepare_input_eq_cond m d g c b hg hlen (by omega) hc hb hbl hball, ?_⟩
    rw [tshape_condAssembled d g c b hlen hbl hN, h2]

/-- C6: a forward call re-applies every scale-level precomputation transform
to the input batch (each transform's precomputation event occurs in the
call's own event log, so nothing is reused from a previous call), and it
leaves the module's stored state — learned parameters and the
`scale_transforms` list — and the batch unchanged. -/
theorem c6_forward_frame (m : GEMGCN) (d : MeshData) (r : ForwardOut)
    (h : forward m d = Except.ok r) :
    r.module = m ∧ r.data = d ∧ ∀ t ∈ m.scale_transforms, Step.precomp t ∈ r.trace := by
  obtain ⟨hm, hd, tail, htr⟩ := forward_ok_inv m d r h
  refine ⟨hm, hd, ?_⟩
  intro t ht
  rw [htr]
  exact List.mem_append_left _ (List.mem_cons_of_mem _ (List.mem_map_of_mem _ ht))

theorem c6_witness :
    exOut.module = exModule ∧ exOut.data = exData ∧
      ∀ t ∈ exModule.scale_transforms, Step.precomp t ∈ exOut.trace :=
  c6_forward_frame exModule exData exOut rfl

/-- C7: `forward` is deterministic — a second call on the module state and
batch left by a successful call returns the identical result. -/
theorem c7_determinism (m : GEMGCN) (d : MeshData) (r : ForwardOut)
    (h : forward m d = Except.ok r) :
    forward r.module r.data = Except.ok r := by
  obtain ⟨hm, hd, h3⟩ := forward_ok_inv m d r h
  rw [hm, hd]
  exact h

theorem c7_witness : forward exOut.module exOut.data = Except.ok exOut :=
  c7_determinism exModule exData exOut rfl

/-- C4: on a well-formed batch, `forward` produces exactly the linear
pipeline of the spec — Assembly, the encoder pair, then for each of the two
nested levels a skip capture immediately followed by pooling and two
convolutions, then, one level deeper in reverse, unpooling immediately
followed by the matching skip concatenation and four convolutions, then the
ambient projection — and retains no cross-call state (module and batch
returned unchanged). -/
theorem c4_pipeline_order (r0 r1 r2 : ℚ) (irep orep : Nat × Nat) (mo nr : Nat) (p : List ℚ)
    (d : MeshData) (g fr : List ℚ)
    (hg : d.geo = some g) (hlen : g.length = d.matrix_features.length)
    (hfr : d.frame = some fr)
    (hN : 1 ≤ d.matrix_features.length)
    (hrep : irep.2 = baseC d + 1 ∨
      (irep.2 = baseC d + 2 ∧ ∃ c b, d.condition = some c ∧ d.batch = some b ∧
        b.length = d.matrix_features.length ∧ b.all (fun k => decide (k < c.length)) = true)) :
    ∃ r, forward (mkGEMGCN [r0, r1, r2] irep orep mo nr p) d = Except.ok r ∧
      r.trace = specPipelineTrace nr mo r0 r1 r2 d ∧
      r.module = mkGEMGCN [r0, r1, r2] irep orep mo nr p ∧ r.data = d :=
  ⟨_, forward_ok_of_wf r0 r1 r2 irep orep mo nr p d g fr hg hlen hfr hN hrep,
    rfl, rfl, rfl⟩

theorem c4_witness :
    ∃ r, forward (mkGEMGCN [1, 2, 3] (1, 2) (1, 1) 2 2 []) exData = Except.ok r ∧
      r.trace = specPipelineTrace 2 2 1 2 3 exData ∧
      r.module = mkGEMGCN [1, 2, 3] (1, 2) (1, 1) 2 2 [] ∧ r.data = exData :=
  c4_pipeline_order 1 2 3 (1, 2) (1, 1) 2 2 [] exData [0, 0, 0] [0]
    rfl rfl rfl (by decide) (Or.inl rfl)

/-- C1 counterexample: on a well-formed single-vertex batch (N = 1) the
forward call succeeds but returns shape (3,), not (N, 3) = (1, 3), because
`squeeze()` also drops the singleton vertex dimension. -/
theorem c1_counterexample :
    ∃ r, forward exModule c1Data = Except.ok r ∧ r.out = [3] ∧
      r.out ≠ [c1Data.matrix_features.length, 3] :=
  ⟨(forward exModule c1Data).toOption.getD exFallback, rfl, rfl, by decide⟩

/-- C1 (amended): for every well-formed mesh batch with at least two
vertices and a single-channel output representation (`out_rep` total 1),
`forward` returns a tensor of shape (N, 3); at N = 1 the unrestricted
`squeeze()` also collapses the vertex dimension, so the (N, 3) shape fails
there (see the counterexample). -/
theorem c1_forward_output_shape (r0 r1 r2 : ℚ) (irep orep : Nat × Nat) (mo nr : Nat)
    (p : List ℚ) (d : MeshData) (g fr : List ℚ)
    (hg : d.geo = some g) (hlen : g.length = d.matrix_features.length)
    (hfr : d.frame = some fr)
    (hN : 2 ≤ d.matrix_features.length)
    (horep : orep.2 = 1)
    (hrep : irep.2 = baseC d + 1 ∨
      (irep.2 = baseC d + 2 ∧ ∃ c b, d.condition = some c ∧ d.batch = some b ∧
        b.length = d.matrix_features.length ∧ b.all (fun k => decide (k < c.length)) = true)) :
    ∃ r, forward (mkGEMGCN [r0, r1, r2] irep orep mo nr p) d = Except.ok r ∧
      r.out = [d.matrix_features.length, 3] := by
  refine ⟨_, forward_ok_of_wf r0 r1 r2 irep orep mo nr p d g fr hg hlen hfr (by omega) hrep, ?_⟩
  have hne : ¬ (d.matrix_features.length = 1) := by omega
  simp [squeezeShape, horep, hne]

theorem c1_witness :
    ∃ r, forward (mkGEMGCN [1, 2, 3] (1, 2) (1, 1) 2 2 []) exData = Except.ok r ∧
      r.out = [exData.matrix_features.length, 3] :=
  c1_forward_output_shape 1 2 3 (1, 2) (1, 1) 2 2 [] exData [0, 0, 0] [0]
    rfl rfl rfl (by decide) rfl (Or.inl rfl)

/-- C9: on a well-formed single-vertex batch (N = 1) with a single-channel
output representation, the unrestricted `squeeze()` removes every singleton
dimension, so `forward` yields shape (3,) instead of the documented
(N, 3) = (1, 3). -/
theorem c9_single_vertex_collapse (r0 r1 r2 : ℚ) (irep orep : Nat × Nat) (mo nr : Nat)
    (p : List ℚ) (d : MeshData) (g fr : List ℚ)
    (hg : d.geo = some g) (hlen : g.length = d.matrix_features.length)
    (hfr : d.frame = some fr)
    (hN1 : d.matrix_features.length = 1)
    (horep : orep.2 = 1)
    (hrep : irep.2 = baseC d + 1 ∨
      (irep.2 = baseC d + 2 ∧ ∃ c b, d.condition = some c ∧ d.batch = some b ∧
        b.length = d.matrix_features.length ∧ b.all (fun k => decide (k < c.length)) = true)) :
    ∃ r, forward (mkGEMGCN [r0, r1, r2] irep orep mo nr p) d = Except.ok r ∧
      r.out = [3] ∧ r.out ≠ [d.matrix_features.length, 3] := by
  refine ⟨_, forward_ok_of_wf r0 r1 r2 irep orep mo nr p d g fr hg hlen hfr (by omega) hrep,
    ?_, ?_⟩
  · simp [squeezeShape, horep, hN1]
  · simp [squeezeShape, horep, hN1]

theorem c9_witness :
    ∃ r, forward (mkGEMGCN [1, 2, 3] (1, 2) (1, 1) 2 2 []) c1Data = Except.ok r ∧
      r.out = [3] ∧ r.out ≠ [c1Data.matrix_features.length, 3] :=
  c9_single_vertex_collapse 1 2 3 (1, 2) (1, 1) 2 2 [] c1Data [0] [0]
    rfl rfl rfl rfl rfl (Or.inl rfl)

/-- C10: for every constructor argument choice, all intermediate convolution
blocks use the hard-coded hidden width of 26 channels (52 = 26 + 26 at the
two post-concatenation blocks), and every block carries the fixed
hyperparameters band_limit = 2, num_samples = 7, checkpoint = true,
batch_norm = true — none of which the constructor arguments can change. -/
theorem c10_fixed_hyperparameters (radii : List ℚ) (irep orep : Nat × Nat) (mo nr : Nat)
    (p : List ℚ) :
    (∀ bl ∈ [(mkGEMGCN radii irep orep mo nr p).conv01,
             (mkGEMGCN radii irep orep mo nr p).conv02,
             (mkGEMGCN radii irep orep mo nr p).conv11,
             (mkGEMGCN radii irep orep mo nr p).conv12,
             (mkGEMGCN radii irep orep mo nr p).conv21,
             (mkGEMGCN radii irep orep mo nr p).conv22,
             (mkGEMGCN radii irep orep mo nr p).conv13,
             (mkGEMGCN radii irep orep mo nr p).conv14,
             (mkGEMGCN radii irep orep mo nr p).conv15,
             (mkGEMGCN radii irep orep mo nr p).conv16,
             (mkGEMGCN radii irep orep mo nr p).conv03,
             (mkGEMGCN radii irep orep mo nr p).conv04,
             (mkGEMGCN radii irep orep mo nr p).conv05,
             (mkGEMGCN radii irep orep mo nr p).conv06],
      bl.band_limit = 2 ∧ bl.num_samples = 7 ∧ bl.checkpoint = true ∧ bl.batch_norm = true) ∧
    (∀ bl ∈ [(mkGEMGCN radii irep orep mo nr p).conv02,
             (mkGEMGCN radii irep orep mo nr p).conv11,
             (mkGEMGCN radii irep orep mo nr p).conv12,
             (mkGEMGCN radii irep orep mo nr p).conv21,
             (mkGEMGCN radii irep orep mo nr p).conv22,
             (mkGEMGCN radii irep orep mo nr p).conv14,
             (mkGEMGCN radii irep orep mo nr p).conv15,
             (mkGEMGCN radii irep orep mo nr p).conv16,
             (mkGEMGCN radii irep orep mo nr p).conv04,
             (mkGEMGCN radii irep orep mo nr p).conv05],
      bl.in_channels = 26 ∧ bl.out_channels = 26) ∧
    (∀ bl ∈ [(mkGEMGCN radii irep orep mo nr p).conv13,
             (mkGEMGCN radii irep orep mo nr p).conv03],
      bl.in_channels = 26 + 26 ∧ bl.out_channels = 26) ∧
    (mkGEMGCN radii irep orep mo nr p).conv01.out_channels = 26 ∧
    (mkGEMGCN radii irep orep mo nr p).conv06.in_channels = 26 := by
  refine ⟨?_, ?_, ?_, rfl, rfl⟩
  · intro bl hbl
    fin_cases hbl <;> exact ⟨rfl, rfl, rfl, rfl⟩
  · intro bl hbl
    fin_cases hbl <;> exact ⟨rfl, rfl⟩
  · intro bl hbl
    fin_cases hbl <;> exact ⟨rfl, rfl⟩

theorem c10_witness :
    (mkGEMGCN [1] (1, 2) (1, 1) 5 4 [0]).conv11.band_limit = 2 ∧
    (mkGEMGCN [1] (1, 2) (1, 1) 5 4 [0]).conv11.num_samples = 7 ∧
    (mkGEMGCN [1] (1, 2) (1, 1) 5 4 [0]).conv11.checkpoint = true ∧
    (mkGEMGCN [1] (1, 2) (1, 1) 5 4 [0]).conv11.batch_norm = true :=
  (c10_fixed_hyperparameters [1] (1, 2) (1, 1) 5 4 [0]).1 _ (by decide)

/-- C8: the number of scale levels equals the length of `radii` (the
constructor validates nothing and accepts any length); a missing mesh
attribute surfaces immediately as an attribute error; and with fewer than
three radii a well-formed forward call fails with an index error at the
first block whose scale index is out of range — no retry, recovery, or
graceful degradation. -/
theorem c8_three_levels_required :
    (∀ (radii : List ℚ) (irep orep : Nat × Nat) (mo nr : Nat) (p : List ℚ),
      (mkGEMGCN radii irep orep mo nr p).scale_transforms.length = radii.length) ∧
    (∀ (m : GEMGCN) (d : MeshData), d.geo = none →
      forward m d = Except.error Err.attributeError) ∧
    (∀ (radii : List ℚ) (irep orep : Nat × Nat) (mo nr : Nat) (p : List ℚ)
        (d : MeshData) (g : List ℚ),
      radii.length < 3 → d.geo = some g → g.length = d.matrix_features.length →
      1 ≤ d.matrix_features.length →
      (irep.2 = baseC d + 1 ∨
        (irep.2 = baseC d + 2 ∧ ∃ c b, d.condition = some c ∧ d.batch = some b ∧
          b.length = d.matrix_features.length ∧
          b.all (fun k => decide (k < c.length)) = true)) →
      forward (mkGEMGCN radii irep orep mo nr p) d = Except.error Err.indexError) := by
  refine ⟨?_, ?_, ?_⟩
  · intro radii irep orep mo nr p
    exact mkScaleTransforms_length nr mo 0 radii
  · intro m d hgeo
    simp [forward, prepare_input, hgeo, getAttrOpt, error_bind, ok_bind]
  · intro radii irep orep mo nr p d g hlen3 hg hlen hN hrep
    obtain ⟨x, hprep, hts⟩ :=
      prepare_input_wf (mkGEMGCN radii irep orep mo nr p) d g hg hlen hN hrep
    rcases radii with _ | ⟨ra, _ | ⟨rb, _ | ⟨rc, rest⟩⟩⟩
    · simp only [forward]
      rw [hprep]
      simp [ok_bind, error_bind, getScale, mkGEMGCN, mkScaleTransforms]
    · simp only [forward]
      rw [hprep]
      simp [ok_bind, error_bind, getScale, applyBlock, applyPool, applyCat, applyProj,
        hts, mkGEMGCN, mkScaleTransforms, countAt]
    · simp only [forward]
      rw [hprep]
      simp [ok_bind, error_bind, getScale, applyBlock, applyPool, applyCat, applyProj,
        hts, mkGEMGCN, mkScaleTransforms, countAt]
    · simp only [List.length_cons] at hlen3
      omega

theorem c8_witness :
    forward exModule exNoGeo = Except.error Err.attributeError ∧
    forward (mkGEMGCN [1, 2] (1, 2) (1, 1) 2 2 []) exData = Except.error Err.indexError :=
  ⟨c8_three_levels_required.2.1 exModule exNoGeo rfl,
   c8_three_levels_required.2.2 [1, 2] (1, 2) (1, 1) 2 2 [] exData [0, 0, 0]
     (by decide) rfl rfl (by decide) (Or.inl rfl)⟩

/-- C2 counterexample: with `in_rep = (1, 5)` and one matrix-feature
channel, `prepare_input` succeeds and returns a tensor with 3 channels, not
`in_rep[1] = 5`, and raises no error — so the channel-count equality does
not hold for every accepted `in_rep` pair. -/
theorem c2_counterexample :
    ∃ q, prepare_input c2Module c2Data = Except.ok q ∧
      (tshape q.x).getD 1 0 = 3 ∧ c2Module.in_rep.2 = 5 ∧
      (tshape q.x).getD 1 0 ≠ c2Module.in_rep.2 :=
  ⟨(prepare_input c2Module c2Data).toOption.getD ⟨[], [], c2Data, []⟩,
    rfl, rfl, rfl, by decide⟩

/-- C2 (amended): the feature tensor from Feature Assembly has second
dimension `C + 1` when `in_rep[1] ≤ C + 1` and `C + 2` otherwise (`C` the
matrix-feature channel count); it equals `in_rep[1]` exactly when
`in_rep[1]` is `C + 1` or `C + 2`, and for any other accepted `in_rep` the
mismatch raises no error in `prepare_input` itself but surfaces as a shape
error at the first convolution block of `forward`. -/
theorem c2_channel_count (r0 r1 r2 : ℚ) (irep orep : Nat × Nat) (mo nr : Nat)
    (p : List ℚ) (d : MeshData) (g : List ℚ)
    (hg : d.geo = some g) (hlen : g.length = d.matrix_features.length)
    (hN : 1 ≤ d.matrix_features.length)
    (hcond : baseC d + 1 < irep.2 → ∃ c b, d.condition = some c ∧ d.batch = some b ∧
      b.length = d.matrix_features.length ∧ b.all (fun k => decide (k < c.length)) = true) :
    ∃ q, prepare_input (mkGEMGCN [r0, r1, r2] irep orep mo nr p) d = Except.ok q ∧
      (tshape q.x).getD 1 0 = (if baseC d + 1 < irep.2 then baseC d + 2 else baseC d + 1) ∧
      ((tshape q.x).getD 1 0 = irep.2 ↔ irep.2 = baseC d + 1 ∨ irep.2 = baseC d + 2) ∧
      (irep.2 ≠ baseC d + 1 ∧ irep.2 ≠ baseC d + 2 →
        forward (mkGEMGCN [r0, r1, r2] irep orep mo nr p) d =
          Except.error Err.shapeError) := by
  by_cases hlt : baseC d + 1 < irep.2
  · obtain ⟨c, b, hc, hb, hbl, hball⟩ := hcond hlt
    have hprep := prepare_input_eq_cond (mkGEMGCN [r0, r1, r2] irep orep mo nr p) d g c b
      hg hlen hlt hc hb hbl hball
    have hts := tshape_condAssembled d g c b hlen hbl hN
    refine ⟨_, hprep, ?_, ?_, ?_⟩
    · simp [hts, hlt]
    · simp only [hts]
      simp only [List.getD_cons_succ, List.getD_cons_zero]
      omega
    · rintro ⟨hne1, hne2⟩
      have hx : ¬ (baseC d + 2 = irep.2) := fun hh => hne2 hh.symm
      simp only [forward]
      rw [hprep]
      simp [ok_bind, error_bind, getScale, applyBlock, hts, mkGEMGCN, mkScaleTransforms, hx]
  · have hle : irep.2 ≤ baseC d + 1 := by omega
    have hprep := prepare_input_eq_base (mkGEMGCN [r0, r1, r2] irep orep mo nr p) d g
      hg hlen hle
    have hts := tshape_baseAssembled d g hlen hN
    refine ⟨_, hprep, ?_, ?_, ?_⟩
    · simp [hts, hlt]
    · simp only [hts]
      simp only [List.getD_cons_succ, List.getD_cons_zero]
      omega
    · rintro ⟨hne1, hne2⟩
      have hx : ¬ (baseC d + 1 = irep.2) := fun hh => hne1 hh.symm
      simp only [forward]
      rw [hprep]
      simp [ok_bind, error_bind, getScale, applyBlock, hts, mkGEMGCN, mkScaleTransforms, hx]

theorem c2_witness :
    ∃ q, prepare_input (mkGEMGCN [1, 2, 3] (1, 2) (1, 1) 2 2 []) exData = Except.ok q ∧
      (tshape q.x).getD 1 0 =
        (if baseC exData + 1 < (1, 2).2 then baseC exData + 2 else baseC exData + 1) ∧
      ((tshape q.x).getD 1 0 = (1, 2).2 ↔
        (1, 2).2 = baseC exData + 1 ∨ (1, 2).2 = baseC exData + 2) ∧
      ((1, 2).2 ≠ baseC exData + 1 ∧ (1, 2).2 ≠ baseC exData + 2 →
        forward (mkGEMGCN [1, 2, 3] (1, 2) (1, 1) 2 2 []) exData =
          Except.error Err.shapeError) :=
  c2_channel_count 1 2 3 (1, 2) (1, 1) 2 2 [] exData [0, 0, 0]
    rfl rfl (by decide) (fun h => absurd h (by decide))

theorem baseAssembled_length (d : MeshData) (g : List ℚ)
    (hlen : g.length = d.matrix_features.length) :
    (baseAssembled d g).length = d.matrix_features.length := by
  unfold baseAssembled
  rw [List.length_zipWith, List.length_map, hlen, min_self]

/-- C3: Feature Assembly concatenates, in fixed order, the batch's matrix
features and a geodesics channel that is zero except in the scalar slot
holding `data.geo`; a boundary-condition channel (also scalar-only, holding
`data.condition[data.batch]`) is appended exactly when `in_rep[1]` exceeds
the base width; the batch itself is returned unmodified. -/
theorem c3_assembly_structure (m : GEMGCN) (d : MeshData) (g : List ℚ)
    (hg : d.geo = some g) (hlen : g.length = d.matrix_features.length)
    (hN : 1 ≤ d.matrix_features.length)
    (hcond : baseC d + 1 < m.in_rep.2 → ∃ c b, d.condition = some c ∧ d.batch = some b ∧
      b.length = d.matrix_features.length ∧ b.all (fun k => decide (k < c.length)) = true) :
    ∃ q, prepare_input m d = Except.ok q ∧ q.data = d ∧
      (tshape q.x).getD 1 0 =
        (if baseC d + 1 < m.in_rep.2 then baseC d + 2 else baseC d + 1) ∧
      ∀ n, n < d.matrix_features.length →
        q.x.getD n [] = d.matrix_features.getD n []
          ++ [scalarChan (irrepsOf d) (g.getD n 0)]
          ++ (if baseC d + 1 < m.in_rep.2
              then [scalarChan (irrepsOf d)
                ((d.condition.getD []).getD ((d.batch.getD []).getD n 0) 0)]
              else []) := by
  by_cases hlt : baseC d + 1 < m.in_rep.2
  · obtain ⟨c, b, hc, hb, hbl, hball⟩ := hcond hlt
    have hprep := prepare_input_eq_cond m d g c b hg hlen hlt hc hb hbl hball
    have hts := tshape_condAssembled d g c b hlen hbl hN
    refine ⟨_, hprep, rfl, by simp [hts, hlt], ?_⟩
    intro n hn
    have hg2 : n < g.length := by omega
    have hb2 : n < b.length := by omega
    have hb3 : n < (baseAssembled d g).length := by
      rw [baseAssembled_length d g hlen]
      exact hn
    have hbase : (baseAssembled d g).getD n [] =
        d.matrix_features.getD n [] ++ [scalarChan (irrepsOf d) (g.getD n 0)] := by
      unfold baseAssembled
      rw [getD_zipWith (fun row ch => row ++ ch) [] [] [] d.matrix_features _ n hn
        (by simpa using hg2)]
      rw [getD_map_geoChan (irrepsOf d) g n hg2]
    have hcrow : (condAssembled d g c b).getD n [] =
        (baseAssembled d g).getD n []
          ++ [scalarChan (irrepsOf d) (c.getD (b.getD n 0) 0)] := by
      unfold condAssembled
      rw [getD_zipWith (fun row ch => row ++ ch) [] [] [] (baseAssembled d g) _ n hb3
        (by simpa using hb2)]
      rw [getD_map_condChan (irrepsOf d) c b n hb2]
    show (condAssembled d g c b).getD n [] = _
    rw [hcrow, hbase, if_pos hlt]
    simp [hc, hb]
  · have hle : m.in_rep.2 ≤ baseC d + 1 := by omega
    have hprep := prepare_input_eq_base m d g hg hlen hle
    have hts := tshape_baseAssembled d g hlen hN
    refine ⟨_, hprep, rfl, by simp [hts, hlt], ?_⟩
    intro n hn
    have hg2 : n < g.length := by omega
    show (baseAssembled d g).getD n [] = _
    unfold baseAssembled
    rw [getD_zipWith (fun row ch => row ++ ch) [] [] [] d.matrix_features _ n hn
      (by simpa using hg2)]
    rw [getD_map_geoChan (irrepsOf d) g n hg2]
    simp [hlt]

theorem c3_witness :
    ∃ q, prepare_input c2Module c2Data = Except.ok q ∧ q.data = c2Data ∧
      (tshape q.x).getD 1 0 =
        (if baseC c2Data + 1 < c2Module.in_rep.2
         then baseC c2Data + 2 else baseC c2Data + 1) ∧
      ∀ n, n < c2Data.matrix_features.length →
        q.x.getD n [] = c2Data.matrix_features.getD n []
          ++ [scalarChan (irrepsOf c2Data) ([0, 0].getD n 0)]
          ++ (if baseC c2Data + 1 < c2Module.in_rep.2
              then [scalarChan (irrepsOf c2Data)
                ((c2Data.condition.getD []).getD ((c2Data.batch.getD []).getD n 0) 0)]
              else []) :=
  c3_assembly_structure c2Module c2Data [0, 0] rfl rfl (by decide)
    (fun _ => ⟨[0], [0, 0], rfl, rfl, rfl, rfl⟩)

/-- C5: each `scale_transforms[i]` is the composition of `ScaleMask(i)` and
`GemPrecomp` with `max_r = radii[i]`; `prepare_input` derives
`scale_attr[i]` from exactly that transform applied to the input batch; and
every block call in `forward` uses the scale index of its level
consistently on the way down and on the way up (level-0 blocks index 0,
level-1 blocks index 1, level-2 blocks index 2), receiving the attribute of
that index. -/
theorem c5_scale_index_consistency (r0 r1 r2 : ℚ) (irep orep : Nat × Nat) (mo nr : Nat)
    (p : List ℚ) (d : MeshData) (g fr : List ℚ)
    (hg : d.geo = some g) (hlen : g.length = d.matrix_features.length)
    (hfr : d.frame = some fr)
    (hN : 1 ≤ d.matrix_features.length)
    (hrep : irep.2 = baseC d + 1 ∨
      (irep.2 = baseC d + 2 ∧ ∃ c b, d.condition = some c ∧ d.batch = some b ∧
        b.length = d.matrix_features.length ∧ b.all (fun k => decide (k < c.length)) = true)) :
    (∀ (radii : List ℚ) (i : Nat) (r : ℚ), radii.get? i = some r →
      (mkGEMGCN radii irep orep mo nr p).scale_transforms.get? i =
        some ⟨i, nr, mo, r⟩) ∧
    (∃ q, prepare_input (mkGEMGCN [r0, r1, r2] irep orep mo nr p) d = Except.ok q ∧
      ∀ i, q.scale_attr.get? i =
        ((mkGEMGCN [r0, r1, r2] irep orep mo nr p).scale_transforms.get? i).map
          (fun t => ScaleAttr.mk t d)) ∧
    (∃ r, forward (mkGEMGCN [r0, r1, r2] irep orep mo nr p) d = Except.ok r ∧
      ∀ nm i a, Step.conv nm i a ∈ r.trace →
        i = specScaleIndex nm ∧
        a = ScaleAttr.mk ⟨i, nr, mo, [r0, r1, r2].getD i 0⟩ d) := by
  refine ⟨?_, ?_, ?_⟩
  · intro radii i r h
    have := mkScaleTransforms_get nr mo radii 0 i r h
    simpa [mkGEMGCN] using this
  · obtain ⟨x, hprep, -⟩ :=
      prepare_input_wf (mkGEMGCN [r0, r1, r2] irep orep mo nr p) d g hg hlen hN hrep
    refine ⟨_, hprep, ?_⟩
    intro i
    simp [List.get?_map]
  · refine ⟨_, forward_ok_of_wf r0 r1 r2 irep orep mo nr p d g fr hg hlen hfr hN hrep, ?_⟩
    intro nm i a h
    simp only [specPipelineTrace, List.mem_cons, List.not_mem_nil, or_false] at h
    rcases h with h|h|h|h|h|h|h|h|h|h|h|h|h|h|h|h|h|h|h|h|h|h|h|h|h|h|h|h
    all_goals cases h
    all_goals exact ⟨rfl, rfl⟩

theorem c5_witness :
    (∀ (radii : List ℚ) (i : Nat) (r : ℚ), radii.get? i = some r →
      (mkGEMGCN radii (1, 2) (1, 1) 2 2 []).scale_transforms.get? i =
        some ⟨i, 2, 2, r⟩) ∧
    (∃ q, prepare_input (mkGEMGCN [1, 2, 3] (1, 2) (1, 1) 2 2 []) exData = Except.ok q ∧
      ∀ i, q.scale_attr.get? i =
        ((mkGEMGCN [1, 2, 3] (1, 2) (1, 1) 2 2 []).scale_transforms.get? i).map
          (fun t => ScaleAttr.mk t exData)) ∧
    (∃ r, forward (mkGEMGCN [1, 2, 3] (1, 2) (1, 1) 2 2 []) exData = Except.ok r ∧
      ∀ nm i a, Step.conv nm i a ∈ r.trace →
        i = specScaleIndex nm ∧
        a = ScaleAttr.mk ⟨i, 2, 2, [(1 : ℚ), 2, 3].getD i 0⟩ exData) :=
  c5_scale_index_consistency 1 2 3 (1, 2) (1, 1) 2 2 [] exData [0, 0, 0] [0]
    rfl rfl rfl (by decide) (Or.inl rfl)
